import Mathlib

/-!
Verification of the layout-resolution and array-creation routines of
`cupy/creation/basic.py`: the order/stride resolver
`_new_like_order_and_strides`, the `_like` creation functions, `full`
and `eye`.  Machine integers are modelled as `Int`/`Nat` (strides are
byte offsets, shapes are dimension lists); collaborators that live in
the ndarray core (contiguity flags, `fill`, `diagonal`) are modelled
from the spec and flagged as such in their doc comments.
-/

namespace CupyBasic

/-- Dtype abstraction: the element size in bytes (`numpy.dtype(d).itemsize`)
plus a code distinguishing dtypes of equal size. -/
structure DType where
  itemsize : Nat
  code : Nat
deriving DecidableEq

/-- Source ndarray data visible to `_new_like_order_and_strides`: shape,
byte strides and dtype.  A real ndarray always has as many strides as
dimensions; theorems that need that invariant carry it as a hypothesis. -/
structure Ndarray where
  shape : List Nat
  strides : List Int
  dtype : DType
deriving DecidableEq

def Ndarray.ndim (a : Ndarray) : Nat := a.shape.length

def Ndarray.size (a : Ndarray) : Nat := a.shape.prod

def Ndarray.itemsize (a : Ndarray) : Nat := a.dtype.itemsize

/-- Canonical row-major (C-order) byte strides: the stride of an axis is the
element size times the product of the dimensions after that axis. -/
def cStrides (itemsize : Nat) : List Nat → List Int
  | [] => []
  | _ :: rest => ((itemsize * rest.prod : Nat) : Int) :: cStrides itemsize rest

/-- Accumulating helper for the column-major stride formula. -/
def fStridesAux (acc : Nat) : List Nat → List Int
  | [] => []
  | d :: rest => (acc : Int) :: fStridesAux (acc * d) rest

/-- Canonical column-major (F-order) byte strides: the stride of an axis is
the element size times the product of the dimensions before that axis. -/
def fStrides (itemsize : Nat) (shape : List Nat) : List Int :=
  fStridesAux itemsize shape

/-- Modelled from the spec: the flag `a.flags.c_contiguous` (computed in the
ndarray core, outside this excerpt) — row-major contiguous means the strides
match the trailing-dimension-product formula with no gaps. -/
def Ndarray.c_contiguous (a : Ndarray) : Bool :=
  a.strides == cStrides a.itemsize a.shape

/-- Modelled from the spec: the flag `a.flags.f_contiguous`, the column-major
mirror of `Ndarray.c_contiguous` (leading dimension fastest). -/
def Ndarray.f_contiguous (a : Ndarray) : Bool :=
  a.strides == fStrides a.itemsize a.shape

/-- Ascending lexicographic order on (stride, axis) pairs: the key order used
by `numpy.sort(tmp, order=['strides', 'axes'])`. -/
def lexLE (p q : Int × Nat) : Prop :=
  p.1 < q.1 ∨ (p.1 = q.1 ∧ p.2 ≤ q.2)

instance : DecidableRel lexLE := fun p q => by
  unfold lexLE
  infer_instance

/-- Axis permutation produced by the sort step of the explicit branch:
pair each stride with its axis, sort ascending lexicographically
(`numpy.sort` on the fields strides, axes), reverse the result (`[::-1]`)
and keep the axis column. -/
def sortedStridePerm (strides : List Int) : List Nat :=
  ((List.insertionSort lexLE (strides.zip (List.range strides.length))).reverse).map
    Prod.snd

/-- Stride-filling loop of the explicit branch: walk the axis permutation
from the smallest stride to the largest (the list argument is the reversed
permutation), assign each visited axis the running stride and multiply the
running stride by that axis's dimension. -/
def strideFill (shape : List Nat) : List Nat → Nat → List Int → List Int
  | [], _, acc => acc
  | i :: rest, stride, acc =>
      strideFill shape rest (stride * shape.getD i 1) (acc.set i (stride : Int))

/-- Result triple of `_new_like_order_and_strides`: the resolved order
character, the optional explicit strides, and the byte size of the optional
fresh buffer (`cupy.empty(a.size, dtype).data` allocates
`a.size * itemsize` bytes). -/
abbrev LayoutDecision := Char × Option (List Int) × Option Nat

/-- Embedding of `_new_like_order_and_strides(a, dtype, order)`. -/
def new_like_order_and_strides (a : Ndarray) (dtype : DType) (order : Char) :
    Except String LayoutDecision :=
  let order1 :=
    if order = 'A' then
      (if a.f_contiguous then 'F' else 'C')
    else if order = 'K' then
      (if a.c_contiguous = true ∨ a.ndim ≤ 1 then 'C'
       else if a.f_contiguous then 'F'
       else 'K')
    else order
  if order1 = 'C' ∨ order1 = 'F' then
    Except.ok (order1, none, none)
  else if order1 = 'K' then
    let perm := sortedStridePerm a.strides
    let strides := strideFill a.shape perm.reverse dtype.itemsize
      (List.replicate a.ndim 0)
    Except.ok ('C', some strides, some (a.size * dtype.itemsize))
  else
    Except.error ("order not understood: " ++ order.toString)

/-- Scalar values usable as fill values; the float constructor carries a
mantissa and a decimal exponent so distinct literals stay distinct. -/
inductive Scalar
  | intLit (n : Int)
  | floatLit (mantissa : Int) (exp10 : Int)
  | boolLit (b : Bool)
deriving DecidableEq

/-- Concrete integer dtype tag (8-byte). -/
def intD : DType := ⟨8, 0⟩

/-- Concrete floating dtype tag (8-byte). -/
def floatD : DType := ⟨8, 1⟩

/-- Concrete boolean dtype tag (1-byte). -/
def boolD : DType := ⟨1, 2⟩

/-- Modelled from the spec: the type-inference collaborator
`numpy.array(fill_value).dtype` (outside this excerpt) — a floating literal
infers a floating dtype, an integer literal an integer dtype. -/
def scalarNaturalDType : Scalar → DType
  | Scalar.intLit _ => intD
  | Scalar.floatLit _ _ => floatD
  | Scalar.boolLit _ => boolD

/-- Fill value passed to `full`/`full_like`: either a cupy ndarray (carrying
its own dtype and the scalar it broadcasts to) or a plain scalar; the
`isinstance(fill_value, cupy.ndarray)` test distinguishes the two. -/
inductive FillValue
  | ndarr (dtype : DType) (value : Scalar)
  | scalar (value : Scalar)

/-- Scalar broadcast by a fill value. -/
def FillValue.value : FillValue → Scalar
  | FillValue.ndarr _ v => v
  | FillValue.scalar v => v

/-- Element-level view of a filled array: shape, dtype and a flat read. -/
structure FilledArray where
  shape : List Nat
  dtype : DType
  elem : Nat → Scalar

/-- Modelled from the spec: `a.fill(value)` (fill collaborator, outside this
excerpt) broadcast-assigns one value to every element. -/
def ndarrayFill (shape : List Nat) (dtype : DType) (v : Scalar) : FilledArray :=
  ⟨shape, dtype, fun _ => v⟩

/-- Embedding of `full(shape, fill_value, dtype)`: default the dtype from the
fill value (its own dtype when it is an ndarray, else the natural dtype of
the scalar), then allocate and fill. -/
def full (shape : List Nat) (fv : FillValue) (dtype : Option DType) :
    FilledArray :=
  let dt := match dtype with
    | none =>
      match fv with
      | FillValue.ndarr d _ => d
      | FillValue.scalar s => scalarNaturalDType s
    | some d => d
  ndarrayFill shape dt fv.value

/-- Fill policy applied by a `_like` creation function after allocating. -/
inductive FillKind
  | noFill
  | scalarFill (v : Scalar)
  | zeroFillBytes (nbytes : Nat)
deriving DecidableEq

/-- Arguments of the `cupy.ndarray(a.shape, dtype, memptr, strides, order)`
call made by the `_like` functions, plus the fill applied afterwards. -/
structure LikeResult where
  shape : List Nat
  dtype : DType
  order : Char
  strides : Option (List Int)
  memBytes : Option Nat
  fill : FillKind
deriving DecidableEq

/-- Embedding of `empty_like(a, dtype, order)`. -/
def empty_like (a : Ndarray) (dtype : Option DType) (order : Char) :
    Except String LikeResult :=
  let dt := match dtype with
    | none => a.dtype
    | some d => d
  match new_like_order_and_strides a dt order with
  | Except.ok (o, st, mem) => Except.ok ⟨a.shape, dt, o, st, mem, FillKind.noFill⟩
  | Except.error e => Except.error e

/-- Embedding of `ones_like(a, dtype, order)`: as `empty_like`, then
`a.fill(1)`. -/
def ones_like (a : Ndarray) (dtype : Option DType) (order : Char) :
    Except String LikeResult :=
  let dt := match dtype with
    | none => a.dtype
    | some d => d
  match new_like_order_and_strides a dt order with
  | Except.ok (o, st, mem) =>
      Except.ok ⟨a.shape, dt, o, st, mem, FillKind.scalarFill (Scalar.intLit 1)⟩
  | Except.error e => Except.error e

/-- Embedding of `zeros_like(a, dtype, order)`: as `empty_like`, then
`a.data.memset_async(0, a.nbytes)` on the new array. -/
def zeros_like (a : Ndarray) (dtype : Option DType) (order : Char) :
    Except String LikeResult :=
  let dt := match dtype with
    | none => a.dtype
    | some d => d
  match new_like_order_and_strides a dt order with
  | Except.ok (o, st, mem) =>
      Except.ok ⟨a.shape, dt, o, st, mem,
        FillKind.zeroFillBytes (a.shape.prod * dt.itemsize)⟩
  | Except.error e => Except.error e

/-- Embedding of `full_like(a, fill_value, dtype, order)`: as `empty_like`,
then `a.fill(fill_value)`. -/
def full_like (a : Ndarray) (fv : FillValue) (dtype : Option DType)
    (order : Char) : Except String LikeResult :=
  let dt := match dtype with
    | none => a.dtype
    | some d => d
  match new_like_order_and_strides a dt order with
  | Except.ok (o, st, mem) =>
      Except.ok ⟨a.shape, dt, o, st, mem, FillKind.scalarFill fv.value⟩
  | Except.error e => Except.error e

/-- Modelled from the spec: element-level value of `eye(N, M, k)` —
`zeros((N, M))` is zero everywhere, then `ret.diagonal(k)[:] = 1` (the
diagonal view lives in the ndarray core, outside this excerpt) writes a one
at each in-bounds position `(i, j)` with `j - i = k`. -/
def eyeEntry (N M : Nat) (k : Int) (i j : Nat) : Nat :=
  if i < N ∧ j < M ∧ (j : Int) = (i : Int) + k then 1 else 0

/-- Length of the k-th diagonal of an N-by-M matrix as the spec states it:
`min(N, M - k)` for nonnegative k, `min(N + k, M)` for negative k. -/
def diagLen (N M : Nat) (k : Int) : Int :=
  if 0 ≤ k then min (N : Int) ((M : Int) - k) else min ((N : Int) + k) (M : Int)

/-- Strides produced by `strideFill`, read along the processing order: the
running stride starts at the element size and is multiplied by each visited
axis's dimension in turn. -/
def cumStrides (shape : List Nat) : List Nat → Nat → List Int
  | [], _ => []
  | i :: rest, stride =>
      (stride : Int) :: cumStrides shape rest (stride * shape.getD i 1)

/-! Theorems. -/

/-- C1.  The explicit-permutation branch does NOT use an ascending axis
tie-break: axes 0 and 1 both have stride 0, yet the resulting permutation
lists axis 1 first (`numpy.sort` ascends and the `[::-1]` reversal turns
the tie-break into descending axis order), so the resolver assigns strides
[1, 2] where the claimed ordering (and NumPy's
`PyArray_CreateSortedStridePerm`, which the code's comment says it mimics)
would produce the permutation [0, 1] and strides [3, 1]. -/
theorem sortedStridePerm_tie_break_descending :
    sortedStridePerm [0, 0] = [1, 0] ∧
    new_like_order_and_strides ⟨[2, 3], [0, 0], ⟨1, 0⟩⟩ ⟨1, 0⟩ 'K' =
      Except.ok ('C', some [1, 2], some 6) := by
  exact ⟨rfl, rfl⟩

/-- C2 counterexample.  A one-dimensional contiguous source (shape [2],
strides [4], element size 4) is column-major-contiguous, so mode AsIs
resolves it to ColumnMajor, not RowMajor as the claim states for every
source with ndim at most 1. -/
theorem asis_1d_counterexample :
    new_like_order_and_strides ⟨[2], [4], ⟨4, 0⟩⟩ ⟨4, 0⟩ 'A' =
      Except.ok ('F', none, none) ∧ ('F' : Char) ≠ 'C' := by
  exact ⟨rfl, by decide⟩

/-- C2 amended.  For mode AsIs the resolver returns no explicit strides and
no fresh buffer, and resolves to ColumnMajor exactly when the source's
strides equal the canonical column-major strides for its shape and element
size — including sources that are also trivially row-major, such as
contiguous sources with ndim at most 1; a source resolves to RowMajor iff
that contiguity test fails. -/
theorem asis_resolution (a : Ndarray) (dtype : DType) :
    new_like_order_and_strides a dtype 'A' =
      Except.ok
        ((if a.strides = fStrides a.itemsize a.shape then 'F' else 'C'),
          none, none) := by
  by_cases h : a.strides = fStrides a.itemsize a.shape <;>
    simp [new_like_order_and_strides, Ndarray.f_contiguous, h]

/-- C3.  Under ClosestMatch, a row-major-contiguous source or one with ndim
at most 1 resolves to RowMajor with no explicit strides and no fresh
buffer; a source with ndim at least 2 that is column-major-contiguous but
not row-major-contiguous resolves to ColumnMajor with no explicit strides
and no fresh buffer. -/
theorem closest_match_contiguous (a : Ndarray) (dtype : DType) :
    ((a.c_contiguous = true ∨ a.ndim ≤ 1) →
      new_like_order_and_strides a dtype 'K' = Except.ok ('C', none, none)) ∧
    (2 ≤ a.ndim → a.c_contiguous = false → a.f_contiguous = true →
      new_like_order_and_strides a dtype 'K' = Except.ok ('F', none, none)) := by
  constructor
  · intro h
    simp [new_like_order_and_strides, h]
  · intro h1 h2 h3
    have hnot : ¬(a.c_contiguous = true ∨ a.ndim ≤ 1) := by
      rintro (hc | hn)
      · rw [h2] at hc
        exact Bool.false_ne_true hc
      · omega
    simp [new_like_order_and_strides, hnot, h3]

/-- C3 witness: a row-major-contiguous source (shape [2,3], strides [12,4],
element size 4) resolves to RowMajor and a column-major-contiguous source
(shape [2,3], strides [4,8]) resolves to ColumnMajor. -/
theorem closest_match_contiguous_witness :
    ((Ndarray.mk [2, 3] [12, 4] ⟨4, 0⟩).c_contiguous = true ∨
      (Ndarray.mk [2, 3] [12, 4] ⟨4, 0⟩).ndim ≤ 1) ∧
    new_like_order_and_strides ⟨[2, 3], [12, 4], ⟨4, 0⟩⟩ ⟨4, 0⟩ 'K' =
      Except.ok ('C', none, none) ∧
    2 ≤ (Ndarray.mk [2, 3] [4, 8] ⟨4, 0⟩).ndim ∧
    (Ndarray.mk [2, 3] [4, 8] ⟨4, 0⟩).c_contiguous = false ∧
    (Ndarray.mk [2, 3] [4, 8] ⟨4, 0⟩).f_contiguous = true ∧
    new_like_order_and_strides ⟨[2, 3], [4, 8], ⟨4, 0⟩⟩ ⟨4, 0⟩ 'K' =
      Except.ok ('F', none, none) := by
  refine ⟨by decide,
    (closest_match_contiguous ⟨[2, 3], [12, 4], ⟨4, 0⟩⟩ ⟨4, 0⟩).1 (by decide),
    by decide, by decide, by decide,
    (closest_match_contiguous ⟨[2, 3], [4, 8], ⟨4, 0⟩⟩ ⟨4, 0⟩).2 (by decide)
      (by decide) (by decide)⟩

/-- C4.  A non-contiguous source of shape (2,3,4) with strides (4,48,16) and
element size 4 yields under ClosestMatch the sorted axis order [1,2,0],
explicit strides [4,32,8] indexed by original axis, and a fresh buffer of
96 bytes. -/
theorem closest_match_example :
    new_like_order_and_strides ⟨[2, 3, 4], [4, 48, 16], ⟨4, 0⟩⟩ ⟨4, 0⟩ 'K' =
      Except.ok ('C', some [4, 32, 8], some 96) ∧
    sortedStridePerm [4, 48, 16] = [1, 2, 0] := by
  exact ⟨rfl, rfl⟩

theorem strideFill_length (shape : List Nat) (l : List Nat) :
    ∀ (s : Nat) (acc : List Int), (strideFill shape l s acc).length = acc.length := by
  induction l with
  | nil => intro s acc; rfl
  | cons i rest ih =>
      intro s acc
      simp only [strideFill]
      rw [ih, List.length_set]

theorem getD_set_ne (l : List Int) (i j : Nat) (v : Int) (h : i ≠ j) :
    (l.set i v).getD j 0 = l.getD j 0 := by
  simp [List.getD_eq_getElem?_getD, List.getElem?_set_ne h]

theorem getD_set_self (l : List Int) (i : Nat) (v : Int) (h : i < l.length) :
    (l.set i v).getD i 0 = v := by
  simp [List.getD_eq_getElem?_getD, List.getElem?_set_self h]

theorem strideFill_getD_not_mem (shape : List Nat) (l : List Nat) :
    ∀ (s : Nat) (acc : List Int) (i : Nat), i ∉ l →
      (strideFill shape l s acc).getD i 0 = acc.getD i 0 := by
  induction l with
  | nil => intro s acc i _; rfl
  | cons j rest ih =>
      intro s acc i hi
      simp only [strideFill]
      rw [ih _ _ _ (fun h => hi (List.mem_cons_of_mem _ h))]
      exact getD_set_ne acc j i _ (fun h => hi (h ▸ List.mem_cons_self j rest))

theorem strideFill_spec (shape : List Nat) (l : List Nat) :
    ∀ (s : Nat) (acc : List Int), l.Nodup → (∀ i ∈ l, i < acc.length) →
      l.map (fun i => (strideFill shape l s acc).getD i 0) =
        cumStrides shape l s := by
  induction l with
  | nil => intro s acc _ _; rfl
  | cons j rest ih =>
      intro s acc hnd hb
      obtain ⟨hj, hrest⟩ := List.nodup_cons.mp hnd
      simp only [strideFill, cumStrides, List.map_cons]
      congr 1
      · rw [strideFill_getD_not_mem shape rest _ _ j hj]
        exact getD_set_self acc j _ (hb j (List.mem_cons_self j rest))
      · exact ih _ _ hrest (fun i hi => by
          rw [List.length_set]
          exact hb i (List.mem_cons_of_mem _ hi))

theorem cStrides_concat (s d : Nat) (dims : List Nat) :
    cStrides s (dims ++ [d]) = cStrides (s * d) dims ++ [(s : Int)] := by
  induction dims with
  | nil => simp [cStrides]
  | cons x xs ih =>
      simp only [List.cons_append, cStrides, ih]
      congr 2
      simp only [List.append_eq, List.prod_append, List.prod_cons, List.prod_nil]
      ring

theorem cumStrides_reverse (shape : List Nat) (l : List Nat) :
    ∀ s : Nat, (cumStrides shape l s).reverse =
      cStrides s (l.reverse.map (fun i => shape.getD i 1)) := by
  induction l with
  | nil => intro s; rfl
  | cons i rest ih =>
      intro s
      simp only [cumStrides, List.reverse_cons, List.map_append, List.map_cons,
        List.map_nil]
      rw [cStrides_concat, ih (s * shape.getD i 1)]

theorem map_getD_range (out : List Int) :
    (List.range out.length).map (fun i => out.getD i 0) = out := by
  induction out with
  | nil => rfl
  | cons x xs ih =>
      rw [List.length_cons, List.range_succ_eq_map, List.map_cons, List.map_map]
      have h : ((fun i => (x :: xs).getD i 0) ∘ Nat.succ) =
          fun i => xs.getD i 0 := rfl
      rw [h, ih]
      rfl

theorem sortedStridePerm_perm_range (strides : List Int) :
    (sortedStridePerm strides).Perm (List.range strides.length) := by
  unfold sortedStridePerm
  have h1 : (List.insertionSort lexLE
      (strides.zip (List.range strides.length))).reverse.Perm
        (strides.zip (List.range strides.length)) :=
    (List.reverse_perm _).trans (List.perm_insertionSort _ _)
  have h2 := h1.map Prod.snd
  rwa [List.map_snd_zip strides (List.range strides.length)
    (by rw [List.length_range])] at h2

/-- C5 counterexample.  At shape (2,3,4), strides (4,48,16), element size 4
the explicit branch produces strides [4,32,8], and 32 is not among the
canonical row-major stride magnitudes [48,16,4] for that shape, so the
produced strides are not a bijection onto the row-major stride set of the
given shape. -/
theorem closest_match_strides_not_rowmajor_of_shape :
    new_like_order_and_strides ⟨[2, 3, 4], [4, 48, 16], ⟨4, 0⟩⟩ ⟨4, 0⟩ 'K' =
      Except.ok ('C', some [4, 32, 8], some 96) ∧
    (32 : Int) ∈ [(4 : Int), 32, 8] ∧
    (32 : Int) ∉ cStrides 4 [2, 3, 4] := by
  exact ⟨rfl, by decide, by decide⟩

/-- C5 amended.  For every source reaching the explicit ClosestMatch branch,
the produced strides are (as a multiset, i.e. up to a bijection of axis
indices) exactly the canonical row-major stride magnitudes for the
PERMUTED shape — the source shape reordered by the sorted-stride
permutation — and element size, and the fresh buffer holds exactly
elementCount * elementSize bytes. -/
theorem closest_match_permuted_strides (a : Ndarray) (dtype : DType)
    (hlen : a.strides.length = a.shape.length)
    (hc : a.c_contiguous = false) (hn : 2 ≤ a.ndim)
    (hf : a.f_contiguous = false) :
    ∃ strides : List Int,
      new_like_order_and_strides a dtype 'K' =
        Except.ok ('C', some strides, some (a.shape.prod * dtype.itemsize)) ∧
      strides.length = a.ndim ∧
      strides.Perm (cStrides dtype.itemsize
        ((sortedStridePerm a.strides).map (fun i => a.shape.getD i 1))) := by
  have hnot : ¬(a.c_contiguous = true ∨ a.ndim ≤ 1) := by
    rintro (h | h)
    · rw [hc] at h
      exact Bool.false_ne_true h
    · omega
  set perm := sortedStridePerm a.strides with hperm
  set out := strideFill a.shape perm.reverse dtype.itemsize
    (List.replicate a.ndim 0) with hout
  have hres : new_like_order_and_strides a dtype 'K' =
      Except.ok ('C', some out, some (a.size * dtype.itemsize)) := by
    simp [new_like_order_and_strides, hnot, hf, hout, hperm]
  have hpr : perm.Perm (List.range a.strides.length) :=
    sortedStridePerm_perm_range a.strides
  have hrevpr : perm.reverse.Perm (List.range a.strides.length) :=
    (List.reverse_perm perm).trans hpr
  have hnodup : perm.reverse.Nodup :=
    hrevpr.symm.nodup (List.nodup_range _)
  have hbounds : ∀ i ∈ perm.reverse,
      i < (List.replicate a.ndim (0 : Int)).length := by
    intro i hi
    rw [List.length_replicate]
    have hm : i ∈ List.range a.strides.length := hrevpr.mem_iff.1 hi
    have := List.mem_range.1 hm
    unfold Ndarray.ndim
    omega
  have hspec := strideFill_spec a.shape perm.reverse dtype.itemsize
    (List.replicate a.ndim 0) hnodup hbounds
  have hlen_out : out.length = a.ndim := by
    rw [hout, strideFill_length, List.length_replicate]
  have hmap : perm.map (fun i => out.getD i 0) =
      cStrides dtype.itemsize (perm.map (fun i => a.shape.getD i 1)) := by
    have h1 : (perm.map (fun i => out.getD i 0)).reverse =
        cumStrides a.shape perm.reverse dtype.itemsize := by
      rw [← List.map_reverse]
      exact hspec
    have h2 := congrArg List.reverse h1
    rw [List.reverse_reverse] at h2
    rw [h2, cumStrides_reverse, List.reverse_reverse]
  have hperm_out : out.Perm (cStrides dtype.itemsize
      (perm.map (fun i => a.shape.getD i 1))) := by
    rw [← hmap]
    have h0 : out = (List.range out.length).map (fun i => out.getD i 0) :=
      (map_getD_range out).symm
    have hlen2 : out.length = a.strides.length := by
      rw [hlen_out]
      unfold Ndarray.ndim
      omega
    have h4 : ((List.range a.strides.length).map (fun i => out.getD i 0)).Perm
        (perm.map (fun i => out.getD i 0)) :=
      hpr.symm.map (fun i => out.getD i 0)
    rw [← hlen2] at h4
    rw [← h0] at h4
    exact h4
  exact ⟨out, hres, hlen_out, hperm_out⟩

/-- C5 witness: shape [3,2], strides [8,16], element size 4 reaches the
explicit branch; the produced strides [4,12] are a permutation of the
row-major strides [12,4] of the permuted shape [2,3], and the buffer holds
24 bytes. -/
theorem closest_match_permuted_strides_witness :
    ((Ndarray.mk [3, 2] [8, 16] ⟨4, 0⟩).strides.length =
        (Ndarray.mk [3, 2] [8, 16] ⟨4, 0⟩).shape.length ∧
      (Ndarray.mk [3, 2] [8, 16] ⟨4, 0⟩).c_contiguous = false ∧
      2 ≤ (Ndarray.mk [3, 2] [8, 16] ⟨4, 0⟩).ndim ∧
      (Ndarray.mk [3, 2] [8, 16] ⟨4, 0⟩).f_contiguous = false) ∧
    (∃ strides : List Int,
      new_like_order_and_strides ⟨[3, 2], [8, 16], ⟨4, 0⟩⟩ ⟨4, 0⟩ 'K' =
        Except.ok ('C', some strides,
          some ((Ndarray.mk [3, 2] [8, 16] ⟨4, 0⟩).shape.prod *
            (DType.mk 4 0).itemsize)) ∧
      strides.length = (Ndarray.mk [3, 2] [8, 16] ⟨4, 0⟩).ndim ∧
      strides.Perm (cStrides (DType.mk 4 0).itemsize
        ((sortedStridePerm [8, 16]).map
          (fun i => (Ndarray.mk [3, 2] [8, 16] ⟨4, 0⟩).shape.getD i 1)))) :=
  ⟨⟨rfl, by decide, by decide, by decide⟩,
    closest_match_permuted_strides ⟨[3, 2], [8, 16], ⟨4, 0⟩⟩ ⟨4, 0⟩ rfl
      (by decide) (by decide) (by decide)⟩

/-- C6.  Every order character outside C, F, A, K makes the resolver fail
immediately with the order-not-understood error; it never falls back to a
canonical order. -/
theorem invalid_order_error (a : Ndarray) (dtype : DType) (order : Char)
    (hC : order ≠ 'C') (hF : order ≠ 'F') (hA : order ≠ 'A') (hK : order ≠ 'K') :
    new_like_order_and_strides a dtype order =
      Except.error ("order not understood: " ++ order.toString) := by
  simp [new_like_order_and_strides, hC, hF, hA, hK]

/-- C6 witness: the unrecognized order character X produces the error. -/
theorem invalid_order_error_witness :
    (('X' : Char) ≠ 'C' ∧ ('X' : Char) ≠ 'F' ∧ ('X' : Char) ≠ 'A' ∧
      ('X' : Char) ≠ 'K') ∧
    new_like_order_and_strides ⟨[2], [4], ⟨4, 0⟩⟩ ⟨4, 0⟩ 'X' =
      Except.error ("order not understood: " ++ ('X' : Char).toString) :=
  ⟨by decide,
    invalid_order_error ⟨[2], [4], ⟨4, 0⟩⟩ ⟨4, 0⟩ 'X' (by decide) (by decide)
      (by decide) (by decide)⟩

/-- C8.  Every element of `full(shape, fill_value, dtype)` equals the fill
value; with an explicit dtype the result carries that dtype, and with the
dtype omitted it carries the fill value's own dtype when the fill value is
an ndarray, else the natural dtype the scalar-wrapping rule assigns. -/
theorem full_fill_and_dtype (shape : List Nat) (fv : FillValue) (dt : DType) :
    (∀ i, (full shape fv (some dt)).elem i = fv.value) ∧
    (full shape fv (some dt)).dtype = dt ∧
    (∀ i, (full shape fv none).elem i = fv.value) ∧
    (full shape fv none).dtype =
      (match fv with
       | FillValue.ndarr d _ => d
       | FillValue.scalar s => scalarNaturalDType s) := by
  cases fv <;> simp [full, ndarrayFill, FillValue.value]

/-- C9.  The layout decision is a pure function of the source's shape,
strides and dtype together with the requested dtype and order: two
`empty_like` calls on sources agreeing in those fields produce identical
results, in particular two calls with order K on the same source. -/
theorem empty_like_deterministic (a b : Ndarray) (dtype : Option DType)
    (order : Char) (hsh : a.shape = b.shape) (hst : a.strides = b.strides)
    (hdt : a.dtype = b.dtype) :
    empty_like a dtype order = empty_like b dtype order := by
  cases a
  cases b
  cases hsh
  cases hst
  cases hdt
  rfl

/-- C9 witness: repeated resolution of the same non-contiguous source with
order K gives the same decision. -/
theorem empty_like_deterministic_witness :
    empty_like ⟨[2, 3, 4], [4, 48, 16], ⟨4, 0⟩⟩ none 'K' =
      empty_like ⟨[2, 3, 4], [4, 48, 16], ⟨4, 0⟩⟩ none 'K' :=
  empty_like_deterministic ⟨[2, 3, 4], [4, 48, 16], ⟨4, 0⟩⟩
    ⟨[2, 3, 4], [4, 48, 16], ⟨4, 0⟩⟩ none 'K' rfl rfl rfl

theorem diag_count (M : Nat) (k : Int) (N : Nat) :
    ((Finset.range N).filter
      (fun (i : Nat) => 0 ≤ (i : Int) + k ∧ (i : Int) + k < (M : Int))).card =
      (diagLen N M k).toNat := by
  induction N with
  | zero =>
      simp only [Finset.range_zero, Finset.filter_empty, Finset.card_empty,
        diagLen]
      split_ifs <;> omega
  | succ n ih =>
      rw [Finset.range_succ, Finset.filter_insert]
      by_cases h : 0 ≤ (n : Int) + k ∧ (n : Int) + k < (M : Int)
      · rw [if_pos h, Finset.card_insert_of_not_mem (by simp), ih]
        obtain ⟨h1, h2⟩ := h
        unfold diagLen
        split_ifs <;> push_cast <;> omega
      · rw [if_neg h, ih]
        rcases not_and_or.mp h with h1 | h1 <;> push_neg at h1 <;>
          unfold diagLen <;> split_ifs <;> push_cast <;> omega

theorem eye_ones_set_eq (N M : Nat) (k : Int) :
    ((Finset.range N ×ˢ Finset.range M).filter
        (fun p => eyeEntry N M k p.1 p.2 = 1)) =
      ((Finset.range N).filter
        (fun (i : Nat) => 0 ≤ (i : Int) + k ∧ (i : Int) + k < (M : Int))).image
      (fun (i : Nat) => (i, ((i : Int) + k).toNat)) := by
  ext p
  obtain ⟨i, j⟩ := p
  simp only [Finset.mem_filter, Finset.mem_product, Finset.mem_range,
    Finset.mem_image, eyeEntry]
  constructor
  · rintro ⟨⟨hi, hj⟩, hone⟩
    split_ifs at hone with hcond
    · obtain ⟨-, -, heq⟩ := hcond
      refine ⟨i, ⟨hi, by omega, by omega⟩, ?_⟩
      have hj2 : ((i : Int) + k).toNat = j := by omega
      rw [hj2]
  · rintro ⟨i', ⟨hi', h0, hM⟩, heq⟩
    cases heq
    refine ⟨⟨hi', by omega⟩, ?_⟩
    rw [if_pos ⟨hi', by omega, by omega⟩]

/-- C7.  The eye model is one exactly on in-bounds positions of the k-th
diagonal and zero elsewhere; the number of ones equals the clamped
diagonal-length formula min(N, M-k) for nonnegative k and min(N+k, M) for
negative k; and when that length is nonpositive the result is all zero
(no error is possible: the model is total). -/
theorem eye_diagonal (N M : Nat) (k : Int) :
    (∀ i j, eyeEntry N M k i j = 1 ↔
      (i < N ∧ j < M ∧ (j : Int) = (i : Int) + k)) ∧
    (∀ i j, eyeEntry N M k i j = 0 ∨ eyeEntry N M k i j = 1) ∧
    ((Finset.range N ×ˢ Finset.range M).filter
        (fun p => eyeEntry N M k p.1 p.2 = 1)).card = (diagLen N M k).toNat ∧
    (diagLen N M k ≤ 0 → ∀ i j, eyeEntry N M k i j = 0) := by
  refine ⟨?_, ?_, ?_, ?_⟩
  · intro i j
    unfold eyeEntry
    split_ifs with h
    · simp [h]
    · simp [h]
  · intro i j
    unfold eyeEntry
    split_ifs <;> simp
  · have hinj : Function.Injective
        (fun i : Nat => (i, ((i : Int) + k).toNat)) :=
      fun a b h => congrArg Prod.fst h
    rw [eye_ones_set_eq, Finset.card_image_of_injective _ hinj]
    exact diag_count M k N
  · intro hle i j
    unfold eyeEntry
    split_ifs with h
    · exfalso
      obtain ⟨hi, hj, heq⟩ := h
      unfold diagLen at hle
      split_ifs at hle <;> omega
    · rfl

/-- C7 witness: eye(3, k=1) has ones exactly at (0,1) and (1,2); its one
count is the diagonal length 2; and for N=2, M=3, k=-5 the clamped length
is nonpositive and every entry is zero. -/
theorem eye_diagonal_witness :
    eyeEntry 3 3 1 0 1 = 1 ∧ eyeEntry 3 3 1 1 2 = 1 ∧
    eyeEntry 3 3 1 0 0 = 0 ∧ eyeEntry 3 3 1 2 2 = 0 ∧
    ((Finset.range 3 ×ˢ Finset.range 3).filter
        (fun p => eyeEntry 3 3 1 p.1 p.2 = 1)).card = (diagLen 3 3 1).toNat ∧
    diagLen 2 3 (-5) ≤ 0 ∧ eyeEntry 2 3 (-5) 1 1 = 0 :=
  ⟨((eye_diagonal 3 3 1).1 0 1).mpr (by decide),
   ((eye_diagonal 3 3 1).1 1 2).mpr (by decide),
   by decide, by decide,
   (eye_diagonal 3 3 1).2.2.1,
   by decide,
   (eye_diagonal 2 3 (-5)).2.2.2 (by decide) 1 1⟩

/-- C10.  Each `_like` creation function with the dtype argument omitted
gives the new array the source array's dtype whenever it returns an
array. -/
theorem like_default_dtype (a : Ndarray) (order : Char) (fv : FillValue) :
    (∀ r, empty_like a none order = Except.ok r → r.dtype = a.dtype) ∧
    (∀ r, zeros_like a none order = Except.ok r → r.dtype = a.dtype) ∧
    (∀ r, ones_like a none order = Except.ok r → r.dtype = a.dtype) ∧
    (∀ r, full_like a fv none order = Except.ok r → r.dtype = a.dtype) := by
  refine ⟨?_, ?_, ?_, ?_⟩ <;> intro r h
  · simp only [empty_like] at h
    cases hres : new_like_order_and_strides a a.dtype order with
    | ok v =>
        obtain ⟨o, st, mem⟩ := v
        rw [hres] at h
        simp only [Except.ok.injEq] at h
        rw [← h]
    | error e =>
        rw [hres] at h
        simp at h
  · simp only [zeros_like] at h
    cases hres : new_like_order_and_strides a a.dtype order with
    | ok v =>
        obtain ⟨o, st, mem⟩ := v
        rw [hres] at h
        simp only [Except.ok.injEq] at h
        rw [← h]
    | error e =>
        rw [hres] at h
        simp at h
  · simp only [ones_like] at h
    cases hres : new_like_order_and_strides a a.dtype order with
    | ok v =>
        obtain ⟨o, st, mem⟩ := v
        rw [hres] at h
        simp only [Except.ok.injEq] at h
        rw [← h]
    | error e =>
        rw [hres] at h
        simp at h
  · simp only [full_like] at h
    cases hres : new_like_order_and_strides a a.dtype order with
    | ok v =>
        obtain ⟨o, st, mem⟩ := v
        rw [hres] at h
        simp only [Except.ok.injEq] at h
        rw [← h]
    | error e =>
        rw [hres] at h
        simp at h

/-- C10 witness: on a 1-d source of dtype code 7 and element size 4, all
four `_like` functions with omitted dtype return that same dtype. -/
theorem like_default_dtype_witness :
    empty_like ⟨[2], [8], ⟨4, 7⟩⟩ none 'K' =
      Except.ok ⟨[2], ⟨4, 7⟩, 'C', none, none, FillKind.noFill⟩ ∧
    (LikeResult.mk [2] ⟨4, 7⟩ 'C' none none FillKind.noFill).dtype =
      (Ndarray.mk [2] [8] ⟨4, 7⟩).dtype ∧
    (LikeResult.mk [2] ⟨4, 7⟩ 'C' none none
      (FillKind.zeroFillBytes 8)).dtype = (Ndarray.mk [2] [8] ⟨4, 7⟩).dtype ∧
    (LikeResult.mk [2] ⟨4, 7⟩ 'C' none none
      (FillKind.scalarFill (Scalar.intLit 1))).dtype =
        (Ndarray.mk [2] [8] ⟨4, 7⟩).dtype :=
  ⟨rfl,
   (like_default_dtype ⟨[2], [8], ⟨4, 7⟩⟩ 'K'
       (FillValue.scalar (Scalar.intLit 0))).1
     ⟨[2], ⟨4, 7⟩, 'C', none, none, FillKind.noFill⟩ rfl,
   (like_default_dtype ⟨[2], [8], ⟨4, 7⟩⟩ 'K'
       (FillValue.scalar (Scalar.intLit 0))).2.1
     ⟨[2], ⟨4, 7⟩, 'C', none, none, FillKind.zeroFillBytes 8⟩ rfl,
   (like_default_dtype ⟨[2], [8], ⟨4, 7⟩⟩ 'K'
       (FillValue.scalar (Scalar.intLit 0))).2.2.1
     ⟨[2], ⟨4, 7⟩, 'C', none, none,
       FillKind.scalarFill (Scalar.intLit 1)⟩ rfl⟩

end CupyBasic
